import Mathlib

/-!
# Verification of the hyperbrain Meet artifact fetchers

Shallow embedding of the decision logic of `scripts/get_transcript.py` and
`scripts/get_smart_notes.py`: session resolution (time-window filtering and
closest-match selection), the retry executor, the pagination fallback, the
transcript reconstruction, the speaker-label stripper, and the content-fetch
phases of both entry points.
-/

set_option maxHeartbeats 1000000

namespace Hyperbrain

/-- Model of a Python `datetime`: an absolute instant in whole seconds
together with a flag recording whether the value is timezone-aware.
`replace(tzinfo=timezone.utc)` on a naive value keeps the wall clock, which
is the instant recorded here, so normalization preserves `instant`.
Comparison and subtraction of aware datetimes act on the instant, which is
the Python semantics used by the scripts (both window bounds are always
aware after `parse_timestamp`). -/
structure PyDateTime where
  instant : Int
  aware : Bool
deriving DecidableEq

/-- The normalization step of the resolver loop
(`record_start.replace(tzinfo=timezone.utc)` applied only when naive,
get_transcript.py:291-292 and get_smart_notes.py:249-250). -/
def pyNormalizeUTC (t : PyDateTime) : PyDateTime :=
  if t.aware then t else { instant := t.instant, aware := true }

/-- Model of `meet_v2.ConferenceRecord`: resource name plus optional start
and end instants (the proto field is falsy when unset, modelled as `none`). -/
structure ConferenceRecord where
  name : String
  start_time : Option PyDateTime
  end_time : Option PyDateTime
deriving DecidableEq

/-- The per-record test of the `matching_records` loop: the record carries a
start time and, after normalizing a naive start to UTC, the chained Python
comparison `after <= record_start <= before` holds
(get_transcript.py:288-295, get_smart_notes.py:246-253). -/
def inWindow (after before : PyDateTime) (r : ConferenceRecord) : Bool :=
  match r.start_time with
  | none => false
  | some t =>
      let s := pyNormalizeUTC t
      decide (after.instant ≤ s.instant) && decide (s.instant ≤ before.instant)

/-- The `matching_records` accumulation loop of `find_conference_record`:
records passing `inWindow` are appended in their original order
(get_transcript.py:286-295, get_smart_notes.py:244-253). -/
def filterWindow (after before : PyDateTime) : List ConferenceRecord → List ConferenceRecord
  | [] => []
  | r :: rs =>
      if inWindow after before r then r :: filterWindow after before rs
      else filterWindow after before rs

/-- Sort key `abs((r.start_time - after).total_seconds())`
(get_transcript.py:301, get_smart_notes.py:259), computed on the
UN-normalized record start: the filter loop normalizes only its local
`record_start` copy and appends the original record, so a naive surviving
`start_time` is subtracted from the aware `after`, which raises `TypeError`
in Python — modelled as `none`. A missing start likewise raises
(`None - after`); both kinds of mismatch make the key incomputable. -/
def sortKey (after : PyDateTime) (r : ConferenceRecord) : Option Nat :=
  match r.start_time with
  | some t =>
      if t.aware = after.aware then some (t.instant - after.instant).natAbs
      else none
  | none => none

/-- The key value used by the comparison once every key is known to be
computable (`getD` is only ever read under `sortKeysOk`). -/
def sortKeyVal (after : PyDateTime) (r : ConferenceRecord) : Nat :=
  (sortKey after r).getD 0

/-- CPython's `list.sort(key=...)` computes the key of every element (in
list order) before any comparison, even for a singleton list; the sort
raises iff some element's key raises. -/
def sortKeysOk (after : PyDateTime) (l : List ConferenceRecord) : Bool :=
  l.all (fun r => (sortKey after r).isSome)

/-- One insertion step of a stable sort by key: the incoming element is
placed before the first element of strictly greater key, hence after all
earlier elements of equal key. -/
def insertByKey (key : ConferenceRecord → Nat) (x : ConferenceRecord) :
    List ConferenceRecord → List ConferenceRecord
  | [] => [x]
  | y :: ys => if key x ≤ key y then x :: y :: ys else y :: insertByKey key x ys

/-- Stable sort by key, modelling Python's stable `list.sort(key=...)`
(get_transcript.py:301, get_smart_notes.py:259). -/
def sortByKey (key : ConferenceRecord → Nat) : List ConferenceRecord → List ConferenceRecord
  | [] => []
  | x :: xs => insertByKey key x (sortByKey key xs)

/-- The possible outcomes of the remote `list_conference_records` call, as
distinguished by the source's exception handlers. -/
inductive QueryResult where
  | ok (records : List ConferenceRecord)
  | notFound
  | permDenied
  | otherError
deriving DecidableEq

/-- How `find_conference_record` fails as seen by `main`: the
`PermissionError` it raises on `PermissionDenied`, or any other exception
propagating out of the query. -/
inductive FindError where
  | permissionError
  | unhandled
deriving DecidableEq

/-- `find_conference_record` downstream of the remote query: `NotFound` maps
to `None`, `PermissionDenied` raises (here `Except.error .permissionError`),
an empty result list maps to `None`, otherwise the records are filtered by
the time window and the head of the stable sort by distance to `after` is
returned (get_transcript.py:274-302, get_smart_notes.py:232-260; the two
scripts differ only in the filter-string spacing sent to the remote API).
When some survivor's sort key is incomputable (naive start against the
aware `after`), the sort raises `TypeError`; the exception is not caught by
the retry wrapper and reaches `main`'s generic handler, modelled as
`.error .unhandled`. -/
def find_conference_record (q : QueryResult) (after before : PyDateTime) :
    Except FindError (Option ConferenceRecord) :=
  match q with
  | .notFound => .ok none
  | .permDenied => .error .permissionError
  | .otherError => .error .unhandled
  | .ok records =>
      if records.isEmpty then .ok none
      else
        let matching := filterWindow after before records
        if matching.isEmpty then .ok none
        else if sortKeysOk after matching then
          .ok ((sortByKey (sortKeyVal after) matching).head?)
        else .error .unhandled

theorem filterWindow_eq_filter (after before : PyDateTime) (records : List ConferenceRecord) :
    filterWindow after before records = records.filter (inWindow after before) := by
  induction records with
  | nil => rfl
  | cons r rs ih =>
      by_cases h : inWindow after before r
      · simp [filterWindow, h, List.filter, ih]
      · simp [filterWindow, h, List.filter, ih]

theorem inWindow_iff (after before : PyDateTime) (r : ConferenceRecord) :
    inWindow after before r = true ↔
      ∃ t, r.start_time = some t ∧
        after.instant ≤ (pyNormalizeUTC t).instant ∧
        (pyNormalizeUTC t).instant ≤ before.instant := by
  cases h : r.start_time with
  | none => simp [inWindow, h]
  | some t => simp [inWindow, h]

theorem insertByKey_head (key : ConferenceRecord → Nat) (x y : ConferenceRecord)
    (ys : List ConferenceRecord) :
    (insertByKey key x (y :: ys)).head? = some (if key x ≤ key y then x else y) := by
  by_cases h : key x ≤ key y <;> simp [insertByKey, h]

/-- The head of the stable sort is the first element of the list attaining
the minimal key: it is a member, its key is a lower bound, and every element
occurring before it in the original order has a strictly greater key. -/
theorem sortByKey_head (key : ConferenceRecord → Nat) (l : List ConferenceRecord)
    (hl : l ≠ []) :
    ∃ h pre post, (sortByKey key l).head? = some h ∧ l = pre ++ h :: post ∧
      (∀ s ∈ l, key h ≤ key s) ∧ (∀ s ∈ pre, key h < key s) := by
  induction l with
  | nil => exact absurd rfl hl
  | cons x xs ih =>
      by_cases hxs : xs = []
      · subst hxs
        exact ⟨x, [], [], by simp [sortByKey, insertByKey], rfl, by simp, by simp⟩
      · obtain ⟨h', pre', post', hhead, hdec, hmin, hpre⟩ := ih hxs
        cases hs : sortByKey key xs with
        | nil => rw [hs] at hhead; simp at hhead
        | cons a t =>
            rw [hs] at hhead
            simp at hhead
            subst hhead
            by_cases hk : key x ≤ key a
            · refine ⟨x, [], xs, ?_, rfl, ?_, by simp⟩
              · show (insertByKey key x (sortByKey key xs)).head? = some x
                rw [hs, insertByKey_head, if_pos hk]
              · intro s hsmem
                rcases List.mem_cons.mp hsmem with h | h
                · subst h; exact le_refl _
                · exact le_trans hk (hmin s h)
            · push_neg at hk
              refine ⟨a, x :: pre', post', ?_, ?_, ?_, ?_⟩
              · show (insertByKey key x (sortByKey key xs)).head? = some a
                rw [hs, insertByKey_head, if_neg (not_le.mpr hk)]
              · rw [hdec]; rfl
              · intro s hsmem
                rcases List.mem_cons.mp hsmem with h | h
                · subst h; exact le_of_lt hk
                · exact hmin s h
              · intro s hsmem
                rcases List.mem_cons.mp hsmem with h | h
                · subst h; exact hk
                · exact hpre s h

/-- C5: the resolver keeps exactly the returned sessions whose start time,
normalized to UTC when naive, falls inside `[after, before]` inclusive, in
their original order, and excludes every other session regardless of code
match (the code filter is applied remotely, before this loop). -/
theorem resolver_window_filter (after before : PyDateTime) (records : List ConferenceRecord) :
    filterWindow after before records = records.filter (inWindow after before) ∧
    ∀ r, r ∈ filterWindow after before records ↔
      r ∈ records ∧ ∃ t, r.start_time = some t ∧
        after.instant ≤ (pyNormalizeUTC t).instant ∧
        (pyNormalizeUTC t).instant ≤ before.instant := by
  refine ⟨filterWindow_eq_filter _ _ _, fun r => ?_⟩
  rw [filterWindow_eq_filter, List.mem_filter]
  constructor
  · rintro ⟨hmem, hw⟩
    exact ⟨hmem, (inWindow_iff after before r).mp hw⟩
  · rintro ⟨hmem, hw⟩
    exact ⟨hmem, (inWindow_iff after before r).mpr hw⟩

def recInside : ConferenceRecord :=
  { name := "conferenceRecords/in", start_time := some ⟨50, true⟩, end_time := none }

def recOutside : ConferenceRecord :=
  { name := "conferenceRecords/out", start_time := some ⟨5000, true⟩, end_time := none }

theorem resolver_window_filter_witness :
    recInside ∈ filterWindow ⟨0, true⟩ ⟨100, true⟩ [recOutside, recInside] ∧
    recOutside ∉ filterWindow ⟨0, true⟩ ⟨100, true⟩ [recOutside, recInside] := by
  constructor
  · exact ((resolver_window_filter ⟨0, true⟩ ⟨100, true⟩ [recOutside, recInside]).2
      recInside).mpr ⟨by decide, ⟨50, true⟩, by decide, by decide, by decide⟩
  · intro hmem
    have h := ((resolver_window_filter ⟨0, true⟩ ⟨100, true⟩ [recOutside, recInside]).2
      recOutside).mp hmem
    rcases h with ⟨-, t, ht, h1, h2⟩
    have ht5 : ({ instant := 5000, aware := true } : PyDateTime) = t := by
      simpa [recOutside] using ht
    subst ht5
    simp [pyNormalizeUTC] at h2

/-- A session with a naive start time inside the window `[0, 100]`. -/
def recNaive : ConferenceRecord :=
  { name := "conferenceRecords/naive", start_time := some ⟨50, false⟩, end_time := none }

/-- C4 counterexample: a naive in-window start time survives the filter
(the loop compares a normalized copy but appends the original record), yet
the resolver does not return it as closest survivor: the sort key
`r.start_time - after` subtracts the un-normalized naive start from the
aware `after`, raising `TypeError`, which reaches `main`'s generic handler
(`meet_api_error`) — an error outcome, not a selection. -/
theorem resolver_selects_closest_stable_counterexample :
    filterWindow ⟨0, true⟩ ⟨100, true⟩ [recNaive] = [recNaive] ∧
    find_conference_record (.ok [recNaive]) ⟨0, true⟩ ⟨100, true⟩ =
      .error .unhandled := by
  constructor <;> rfl

/-- C4 amended: when every survivor's sort key is computable — its start
time has the same awareness as `after`, so the subtraction at
get_transcript.py:301 does not raise — the resolver returns a survivor of
minimal distance `abs(start_time - after)` that is the first such survivor
in the remote API's original order: every survivor listed before it has
strictly greater distance. (Under `sortKeysOk`, `sortKeyVal` is exactly
that distance.) -/
theorem resolver_selects_closest_stable (after before : PyDateTime)
    (records : List ConferenceRecord)
    (hne : filterWindow after before records ≠ [])
    (hkeys : sortKeysOk after (filterWindow after before records) = true) :
    ∃ r pre post,
      find_conference_record (.ok records) after before = .ok (some r) ∧
      filterWindow after before records = pre ++ r :: post ∧
      (∀ s ∈ filterWindow after before records,
        sortKeyVal after r ≤ sortKeyVal after s) ∧
      (∀ s ∈ pre, sortKeyVal after r < sortKeyVal after s) := by
  obtain ⟨h, pre, post, hhead, hdec, hmin, hpre⟩ :=
    sortByKey_head (sortKeyVal after) _ hne
  have hrecs : records ≠ [] := by
    intro h0; subst h0; exact hne rfl
  refine ⟨h, pre, post, ?_, hdec, hmin, hpre⟩
  simp [find_conference_record, List.isEmpty_iff, hrecs, hne, hkeys, hhead]

def recTieA : ConferenceRecord :=
  { name := "conferenceRecords/tieA", start_time := some ⟨30, true⟩, end_time := none }

def recTieB : ConferenceRecord :=
  { name := "conferenceRecords/tieB", start_time := some ⟨30, true⟩, end_time := none }

theorem resolver_selects_closest_stable_witness :
    ∃ r pre post,
      find_conference_record (.ok [recTieA, recTieB]) ⟨0, true⟩ ⟨100, true⟩ = .ok (some r) ∧
      filterWindow ⟨0, true⟩ ⟨100, true⟩ [recTieA, recTieB] = pre ++ r :: post ∧
      (∀ s ∈ filterWindow ⟨0, true⟩ ⟨100, true⟩ [recTieA, recTieB],
        sortKeyVal ⟨0, true⟩ r ≤ sortKeyVal ⟨0, true⟩ s) ∧
      (∀ s ∈ pre, sortKeyVal ⟨0, true⟩ r < sortKeyVal ⟨0, true⟩ s) :=
  resolver_selects_closest_stable ⟨0, true⟩ ⟨100, true⟩ [recTieA, recTieB]
    (by decide) (by decide)

/-- Classification of one attempt of a remote operation, as made by the
`except` arms of `retry_with_backoff` (get_transcript.py:96-120,
get_smart_notes.py:98-121): success; a retried failure (transient
service-unavailable / deadline-exceeded / timeout classes, resource
exhaustion, or an HTTP 429); or a failure that propagates immediately (an
HttpError with any other status, or an exception type not listed). The
attempt index determinizes the environment: attempt `i` of the wrapped
no-argument call behaves as `op i`. -/
inductive AttemptResult (ε α : Type) where
  | ok (v : α)
  | retryable (e : ε)
  | fatal (e : ε)

/-- The `for attempt in range(max_retries + 1)` loop of `retry_with_backoff`
(get_transcript.py:95-121): `remaining` is the number of retries still
allowed (`max_retries - attempt`). A retryable failure with retries
remaining sleeps (timing only, not modelled) and continues; with none
remaining the loop ends and the last failure is re-raised unchanged. The
second component counts invocations of the wrapped operation. -/
def retryGo (op : Nat → AttemptResult ε α) : Nat → Nat → Except ε α × Nat
  | 0, attempt =>
      match op attempt with
      | .ok v => (Except.ok v, attempt + 1)
      | .fatal e => (Except.error e, attempt + 1)
      | .retryable e => (Except.error e, attempt + 1)
  | r + 1, attempt =>
      match op attempt with
      | .ok v => (Except.ok v, attempt + 1)
      | .fatal e => (Except.error e, attempt + 1)
      | .retryable _ => retryGo op r (attempt + 1)

/-- `retry_with_backoff(max_retries=maxRetries)` applied to an operation:
run up to `1 + maxRetries` attempts starting at attempt 0. -/
def retryExec (op : Nat → AttemptResult ε α) (maxRetries : Nat) : Except ε α × Nat :=
  retryGo op maxRetries 0

/-- Source constant `MAX_RETRIES` (get_transcript.py:50, get_smart_notes.py:56). -/
def MAX_RETRIES : Nat := 3

theorem retryGo_count_all_retryable (op : Nat → AttemptResult ε α) :
    ∀ remaining attempt,
      (∀ i, attempt ≤ i → i ≤ attempt + remaining → ∃ e, op i = .retryable e) →
      (retryGo op remaining attempt).2 = attempt + remaining + 1 := by
  intro remaining
  induction remaining with
  | zero =>
      intro attempt h
      obtain ⟨e, he⟩ := h attempt (le_refl _) (by omega)
      simp [retryGo, he]
  | succ r ih =>
      intro attempt h
      obtain ⟨e, he⟩ := h attempt (le_refl _) (by omega)
      have hrec := ih (attempt + 1) (fun i h1 h2 => h i (by omega) (by omega))
      simp only [retryGo, he, hrec]
      omega

/-- C6: when every attempt fails with a retried (transient or rate-limited)
failure, the retry executor invokes the wrapped operation exactly
`1 + max_retries` times; when the first attempt succeeds, exactly once. -/
theorem retry_invocation_counts (ε α : Type) (maxRetries : Nat) :
    (∀ op : Nat → AttemptResult ε α,
        (∀ i, i ≤ maxRetries → ∃ e, op i = .retryable e) →
        (retryExec op maxRetries).2 = maxRetries + 1) ∧
    (∀ (op : Nat → AttemptResult ε α) (v : α), op 0 = .ok v →
        (retryExec op maxRetries).2 = 1) := by
  constructor
  · intro op h
    have := retryGo_count_all_retryable op maxRetries 0 (fun i _ h2 => h i (by omega))
    simpa [retryExec] using this
  · intro op v h
    cases maxRetries <;> simp [retryExec, retryGo, h]

theorem retry_invocation_counts_witness :
    (retryExec (fun _ => AttemptResult.retryable ()) MAX_RETRIES :
      Except Unit Nat × Nat).2 = 4 ∧
    (retryExec (fun _ => AttemptResult.ok 42) MAX_RETRIES :
      Except Unit Nat × Nat).2 = 1 := by
  constructor
  · exact (retry_invocation_counts Unit Nat MAX_RETRIES).1 _ (fun i _ => ⟨(), rfl⟩)
  · exact (retry_invocation_counts Unit Nat MAX_RETRIES).2 _ 42 rfl

/-- Model of `meet_v2.TranscriptEntry`: participant resource name and text
(proto string fields, falsy when empty). -/
structure TranscriptEntry where
  participant : String
  text : String
deriving DecidableEq

/-- One response of the remote `list_transcript_entries` call: a page of
entries plus the `next_page_token` proto string (empty means last page), or
a retryable failure. The scenario function maps the global index of the
remote call to its response, determinizing transient failures. -/
inductive PageResult where
  | ok (entries : List TranscriptEntry) (nextToken : String)
  | retryableErr
deriving DecidableEq

/-- The `while True` continuation-token loop of `get_transcript_entries`
(get_transcript.py:388-404): each iteration issues one remote call, logged
by the page token it requests (`none` is the initial request), extends the
accumulator, and continues while `next_page_token` is non-empty. A
retryable failure escapes the loop to the retry wrapper. `fuel` bounds the
iterations of the unbounded source loop; `none` in the first component
marks a run needing more iterations than the fuel allows. -/
def paginateAux (fetch : Nat → PageResult) :
    Nat → Nat → Option String → List TranscriptEntry → List (Option String) →
    Option (Except Unit (List TranscriptEntry)) × Nat × List (Option String)
  | 0, k, _, _, log => (none, k, log)
  | fuel + 1, k, tok, acc, log =>
      match fetch k with
      | .ok es next =>
          if next = "" then (some (.ok (acc ++ es)), k + 1, log ++ [tok])
          else paginateAux fetch fuel (k + 1) (some next) (acc ++ es) (log ++ [tok])
      | .retryableErr => (some (.error ()), k + 1, log ++ [tok])

/-- The `@retry_with_backoff()` wrapper around the whole of
`get_transcript_entries` (get_transcript.py:373): `attemptsLeft` counts the
attempts of the retry loop still available (initially `max_retries + 1`);
each attempt re-runs the entire pagination with a fresh accumulator and no
continuation token. Zero attempts left corresponds to re-raising the last
retryable failure. -/
def retryEntriesGo (fetch : Nat → PageResult) (fuel : Nat) :
    Nat → Nat → List (Option String) →
    Option (Except Unit (List TranscriptEntry)) × List (Option String)
  | 0, _, log => (some (.error ()), log)
  | a + 1, k, log =>
      match paginateAux fetch fuel k none [] log with
      | (none, _, log') => (none, log')
      | (some (.ok es), _, log') => (some (.ok es), log')
      | (some (.error _), k', log') => retryEntriesGo fetch fuel a k' log'

/-- `get_transcript_entries` as called from `main`: the retry executor with
`maxRetries` retries wrapping the full pagination loop, together with the
log of page tokens requested, in order, across all attempts. -/
def get_transcript_entries (fetch : Nat → PageResult) (fuel maxRetries : Nat) :
    Option (Except Unit (List TranscriptEntry)) × List (Option String) :=
  retryEntriesGo fetch fuel (maxRetries + 1) 0 []

theorem paginateAux_log_extends (fetch : Nat → PageResult) :
    ∀ fuel k tok acc log, ∃ t,
      (paginateAux fetch fuel k tok acc log).2.2 = log ++ t := by
  intro fuel
  induction fuel with
  | zero => exact fun k tok acc log => ⟨[], by simp [paginateAux]⟩
  | succ f ih =>
      intro k tok acc log
      cases hf : fetch k with
      | ok es next =>
          by_cases hn : next = ""
          · exact ⟨[tok], by simp [paginateAux, hf, hn]⟩
          · obtain ⟨t, ht⟩ := ih (k + 1) (some next) (acc ++ es) (log ++ [tok])
            refine ⟨tok :: t, ?_⟩
            simp only [paginateAux, hf, if_neg hn, ht]
            simp
      | retryableErr => exact ⟨[tok], by simp [paginateAux, hf]⟩

theorem paginateAux_log_head (fetch : Nat → PageResult) (fuel k : Nat)
    (tok : Option String) (acc : List TranscriptEntry) (log : List (Option String))
    (hfuel : 0 < fuel) : ∃ t,
    (paginateAux fetch fuel k tok acc log).2.2 = log ++ tok :: t := by
  cases fuel with
  | zero => omega
  | succ f =>
      cases hf : fetch k with
      | ok es next =>
          by_cases hn : next = ""
          · exact ⟨[], by simp [paginateAux, hf, hn]⟩
          · obtain ⟨t, ht⟩ := paginateAux_log_extends fetch f (k + 1) (some next)
              (acc ++ es) (log ++ [tok])
            refine ⟨t, ?_⟩
            simp only [paginateAux, hf, if_neg hn, ht]
            simp
      | retryableErr => exact ⟨[], by simp [paginateAux, hf]⟩

theorem retryEntriesGo_log_extends (fetch : Nat → PageResult) (fuel : Nat) :
    ∀ a k log, ∃ t, (retryEntriesGo fetch fuel a k log).2 = log ++ t := by
  intro a
  induction a with
  | zero => exact fun k log => ⟨[], by simp [retryEntriesGo]⟩
  | succ a ih =>
      intro k log
      obtain ⟨t, ht⟩ := paginateAux_log_extends fetch fuel k none [] log
      rcases hp : paginateAux fetch fuel k none [] log with ⟨res, k', log'⟩
      rw [hp] at ht
      match res with
      | none => exact ⟨t, by simp [retryEntriesGo, hp]; exact ht⟩
      | some (.ok es) => exact ⟨t, by simp [retryEntriesGo, hp]; exact ht⟩
      | some (.error e) =>
          obtain ⟨t2, ht2⟩ := ih k' log'
          refine ⟨t ++ t2, ?_⟩
          have ht' : log' = log ++ t := ht
          rw [ht'] at ht2
          simp only [retryEntriesGo, hp, ht']
          rw [ht2]
          simp

/-- C3 amended: the Retry Executor wraps the whole pagination function, not
its per-page remote call. When the first pagination attempt fails with a
retryable error and retries remain, the next remote request is again the
initial-page request (no continuation token, fresh accumulator): the whole
pagination restarts rather than retrying only the failed page's call. -/
theorem pagination_retry_restarts (fetch : Nat → PageResult)
    (fuel maxRetries k1 : Nat) (log1 : List (Option String))
    (hfuel : 0 < fuel) (hmr : 1 ≤ maxRetries)
    (hfail : paginateAux fetch fuel 0 none [] [] = (some (.error ()), k1, log1)) :
    ∃ rest, (get_transcript_entries fetch fuel maxRetries).2 = log1 ++ none :: rest := by
  obtain ⟨m, rfl⟩ : ∃ m, maxRetries = m + 1 := ⟨maxRetries - 1, by omega⟩
  show ∃ rest, (retryEntriesGo fetch fuel (m + 1 + 1) 0 []).2 = log1 ++ none :: rest
  rw [show m + 1 + 1 = (m + 1) + 1 from rfl]
  obtain ⟨t, ht⟩ := paginateAux_log_head fetch fuel k1 none [] log1 hfuel
  rcases hp : paginateAux fetch fuel k1 none [] log1 with ⟨res, k', log'⟩
  rw [hp] at ht
  simp only [retryEntriesGo, hfail]
  match res with
  | none => exact ⟨t, by simp [retryEntriesGo, hp]; exact ht⟩
  | some (.ok es) => exact ⟨t, by simp [retryEntriesGo, hp]; exact ht⟩
  | some (.error e) =>
      obtain ⟨t2, ht2⟩ := retryEntriesGo_log_extends fetch fuel m k' log'
      refine ⟨t ++ t2, ?_⟩
      have ht' : log' = log1 ++ none :: t := ht
      rw [ht'] at ht2
      simp only [retryEntriesGo, hp, ht']
      rw [ht2]
      simp

/-- The remote scenario refuting per-page retry wrapping: call 0 returns a
first page with continuation token "t1", call 1 (requesting "t1") fails
with a retryable error, calls 2 and 3 then succeed. -/
def pageScenario : Nat → PageResult
  | 0 => .ok [⟨"P1", "hi"⟩] "t1"
  | 1 => .retryableErr
  | 2 => .ok [⟨"P1", "hi"⟩] "t1"
  | _ => .ok [⟨"P2", "yo"⟩] ""

/-- C3 counterexample: in `pageScenario` the initial page (token `none`) is
requested twice — after the retryable failure on the second page, the retry
re-ran the whole pagination from the first page instead of retrying only
the failed page's call. -/
theorem pagination_retry_restarts_counterexample :
    get_transcript_entries pageScenario 10 3 =
      (some (.ok [⟨"P1", "hi"⟩, ⟨"P2", "yo"⟩]),
        [none, some "t1", none, some "t1"]) ∧
    (get_transcript_entries pageScenario 10 3).2.count none = 2 := by
  constructor <;> rfl

theorem pagination_retry_restarts_witness :
    ∃ rest, (get_transcript_entries pageScenario 10 MAX_RETRIES).2 =
      [none, some "t1"] ++ none :: rest :=
  pagination_retry_restarts pageScenario 10 MAX_RETRIES 2 [none, some "t1"]
    (by decide) (by decide) (by rfl)

/-- `speaker = entry.participant or "Unknown"` (get_transcript.py:427): the
proto participant field is falsy exactly when empty. -/
def speakerOf (e : TranscriptEntry) : String :=
  if e.participant = "" then "Unknown" else e.participant

/-- The flushed paragraph of one speaker run
(get_transcript.py:433 and 441). `current_speaker` is an `Option` because
the loop initializes it to `None`; a flush only ever happens with a speaker
set, and the `none` arm mirrors Python's rendering of `None`. -/
def flushLine (cs : Option String) (ct : List String) : String :=
  (match cs with | some s => s | none => "None") ++ ": " ++ String.intercalate " " ct

/-- The entry loop of `format_entries_as_text` (get_transcript.py:422-441):
state is the current speaker, the texts accumulated for the current run,
and the paragraphs flushed so far; a speaker change flushes the previous
run, and the final run is flushed after the loop. (`entry.text or ""` is
the identity on the string model.) -/
def fmtLoop (cs : Option String) (ct : List String) (lines : List String) :
    List TranscriptEntry → List String
  | [] => if ct.isEmpty then lines else lines ++ [flushLine cs ct]
  | e :: rest =>
      let spk := speakerOf e
      if some spk ≠ cs then
        let lines' := if ct.isEmpty then lines else lines ++ [flushLine cs ct]
        fmtLoop (some spk) [e.text] lines' rest
      else fmtLoop cs (ct ++ [e.text]) lines rest

/-- `format_entries_as_text` (get_transcript.py:407-443): empty input gives
the empty string, otherwise the flushed paragraphs are joined with a blank
line. -/
def format_entries_as_text (entries : List TranscriptEntry) : String :=
  if entries.isEmpty then ""
  else String.intercalate "\n\n" (fmtLoop none [] [] entries)

/-- Modelled from the spec's words, for comparison with the source loop:
the open run's speaker and accumulated texts, extended while consecutive
entries keep the same (Unknown-defaulted) speaker. -/
def runsAux (s : String) (ts : List String) :
    List TranscriptEntry → List (String × List String)
  | [] => [(s, ts)]
  | e :: rest =>
      if speakerOf e = s then runsAux s (ts ++ [e.text]) rest
      else (s, ts) :: runsAux (speakerOf e) [e.text] rest

/-- Maximal runs of consecutive entries sharing the same speaker. -/
def speakerRuns : List TranscriptEntry → List (String × List String)
  | [] => []
  | e :: rest => runsAux (speakerOf e) [e.text] rest

/-- Modelled from the spec's words: one paragraph per consecutive
same-speaker run, of the form `speaker: texts joined by single spaces`,
paragraphs separated by a blank line. -/
def specReconstruction (entries : List TranscriptEntry) : String :=
  String.intercalate "\n\n"
    ((speakerRuns entries).map (fun p => p.1 ++ ": " ++ String.intercalate " " p.2))

theorem fmtLoop_runsAux :
    ∀ (rest : List TranscriptEntry) (s : String) (ts lines : List String),
      ts ≠ [] →
      fmtLoop (some s) ts lines rest =
        lines ++ (runsAux s ts rest).map (fun p => flushLine (some p.1) p.2) := by
  intro rest
  induction rest with
  | nil =>
      intro s ts lines hts
      simp [fmtLoop, runsAux, List.isEmpty_iff, hts]
  | cons e r ih =>
      intro s ts lines hts
      by_cases hspk : speakerOf e = s
      · have hcond : ¬(some (speakerOf e) ≠ some s) := by simp [hspk]
        have hstep : fmtLoop (some s) ts lines (e :: r) =
            fmtLoop (some s) (ts ++ [e.text]) lines r := by
          simp only [fmtLoop]
          rw [if_neg hcond]
        rw [hstep, ih s (ts ++ [e.text]) lines (by simp)]
        conv_rhs => rw [runsAux, if_pos hspk]
      · have hcond : some (speakerOf e) ≠ some s := by simp [hspk]
        have hstep : fmtLoop (some s) ts lines (e :: r) =
            fmtLoop (some (speakerOf e)) [e.text]
              (lines ++ [flushLine (some s) ts]) r := by
          simp only [fmtLoop]
          rw [if_pos hcond, if_neg (by simpa [List.isEmpty_iff] using hts)]
        rw [hstep, ih (speakerOf e) [e.text] (lines ++ [flushLine (some s) ts]) (by simp)]
        conv_rhs => rw [runsAux, if_neg hspk]
        simp

/-- C8: reconstruction groups consecutive entries of the same speaker into
one `speaker: texts joined by single spaces` paragraph, separates
paragraphs by a blank line, attributes entries without a participant label
to the literal speaker `Unknown`, and maps the example
`[(A,hi),(A,there),(B,yo)]` to `A: hi there`, blank line, `B: yo`. -/
theorem reconstruction_groups_consecutive :
    (∀ entries, format_entries_as_text entries = specReconstruction entries) ∧
    format_entries_as_text [⟨"A", "hi"⟩, ⟨"A", "there"⟩, ⟨"B", "yo"⟩] =
      "A: hi there\n\nB: yo" ∧
    (∀ text, speakerOf ⟨"", text⟩ = "Unknown") := by
  refine ⟨?_, by rfl, fun text => rfl⟩
  intro entries
  cases entries with
  | nil => rfl
  | cons e rest =>
      have h := fmtLoop_runsAux rest (speakerOf e) [e.text] [] (by simp)
      have hstep : fmtLoop none [] [] (e :: rest) =
          fmtLoop (some (speakerOf e)) [e.text] [] rest := by
        simp only [fmtLoop]
        rw [if_pos (by simp)]
        rfl
      rw [show format_entries_as_text (e :: rest) =
            String.intercalate "\n\n" (fmtLoop none [] [] (e :: rest)) from rfl,
        hstep, h]
      simp [specReconstruction, speakerRuns, flushLine]

/-- Error code constants of get_transcript.py:54-66. -/
def ERROR_INVALID_TIMESTAMP : String := "invalid_timestamp"

def ERROR_AUTH_CONFIG_MISSING : String := "auth_config_missing"

def ERROR_AUTH_REFRESH_FAILED : String := "auth_refresh_failed"

def ERROR_MEET_ACCESS_DENIED : String := "meet_access_denied"

def ERROR_MEET_API_ERROR : String := "meet_api_error"

def ERROR_NO_CONFERENCE : String := "no_conference_record"

def ERROR_TRANSCRIPT_NOT_READY : String := "transcript_not_ready"

def ERROR_DRIVE_ACCESS_DENIED : String := "drive_access_denied"

def ERROR_TRANSCRIPT_EMPTY : String := "transcript_empty"

def ERROR_TRANSCRIPT_FETCH_ERROR : String := "transcript_fetch_error"

/-- Error code constants specific to get_smart_notes.py:59-71. -/
def ERROR_NO_SMART_NOTES : String := "no_smart_notes"

def ERROR_NOTES_IN_PROGRESS : String := "notes_in_progress"

def ERROR_NOTES_NOT_READY : String := "notes_not_ready"

def ERROR_NOTES_FETCH_ERROR : String := "notes_fetch_error"

/-- `meet_v2.Transcript.State` as compared in get_transcript.py:524-536. -/
inductive TranscriptState where
  | STARTED
  | ENDED
  | FILE_GENERATED
  | STATE_UNSPECIFIED
deriving DecidableEq

/-- `transcript.docs_destination`: document id and export URI, proto string
fields that are falsy exactly when empty; an unset destination message is
falsy as a whole and is modelled as `none` at the use site. -/
structure DocsDestination where
  document : String
  export_uri : String
deriving DecidableEq

/-- Transcript metadata as used by `main` after `get_transcript_metadata`:
generation state and docs destination. -/
structure TranscriptMeta where
  state : TranscriptState
  docs_destination : Option DocsDestination
deriving DecidableEq

/-- Outcome of `download_transcript_doc` (after its own retry wrapper):
exported text, or the classified failures of get_transcript.py:362-370
(`PermissionError` from HTTP 403, `FileNotFoundError` from 404, or any
other exception, which `main` logs and treats like a miss). -/
inductive ExportResult where
  | ok (text : String)
  | permissionDenied
  | notFound
  | otherError
deriving DecidableEq

/-- Outcome of the fallback `get_transcript_entries` call as observed by
`main`: the accumulated entries, or a raised exception. -/
inductive EntriesResult where
  | ok (entries : List TranscriptEntry)
  | raised
deriving DecidableEq

/-- Terminal outcome of the transcript `main` content logic: the success
payload (transcript text and the doc URL when the export was attempted), or
an `output_error` code. -/
inductive TranscriptOutcome where
  | found (transcript : String) (doc_url : Option String)
  | failed (error : String)
deriving DecidableEq

/-- `transcript.docs_destination.export_uri or f"https://docs.google.com/document/d/.../edit"`
(get_transcript.py:553). -/
def transcriptDocUrl (d : DocsDestination) : String :=
  if d.export_uri = "" then "https://docs.google.com/document/d/" ++ d.document ++ "/edit"
  else d.export_uri

/-- The fallback block of get_transcript.py:574-594 plus the success
response: fetch raw entries, format them when non-empty, error with
`transcript_empty` when empty, error with `transcript_fetch_error` when the
fetch raised. The boolean records that the fallback was invoked. -/
def transcriptFallback (doc_url : Option String) (er : EntriesResult) :
    TranscriptOutcome × Bool :=
  match er with
  | .raised => (.failed ERROR_TRANSCRIPT_FETCH_ERROR, true)
  | .ok entries =>
      if entries.isEmpty then (.failed ERROR_TRANSCRIPT_EMPTY, true)
      else (.found (format_entries_as_text entries) doc_url, true)

/-- The transcript content logic of `main` from the readiness check onward
(get_transcript.py:523-610): require `FILE_GENERATED`, try the Google-Doc
export when a document id is present (`if transcript.docs_destination and
transcript.docs_destination.document`), treat access-denial as terminal,
fall back to raw entries when `transcript_text` is still falsy (`None` from
a skipped or failed export, or an exported empty string), and build the
response. The boolean records whether the fallback was invoked. -/
def transcriptContentPhase (meta : TranscriptMeta) (exportRes : ExportResult)
    (er : EntriesResult) : TranscriptOutcome × Bool :=
  if meta.state ≠ .FILE_GENERATED then (.failed ERROR_TRANSCRIPT_NOT_READY, false)
  else
    match meta.docs_destination with
    | some d =>
        if d.document = "" then transcriptFallback none er
        else
          let doc_url := transcriptDocUrl d
          match exportRes with
          | .ok t =>
              if t = "" then transcriptFallback (some doc_url) er
              else (.found t (some doc_url), false)
          | .permissionDenied => (.failed ERROR_DRIVE_ACCESS_DENIED, false)
          | .notFound => transcriptFallback (some doc_url) er
          | .otherError => transcriptFallback (some doc_url) er
    | none => transcriptFallback none er

/-- The notes `docsDestination` JSON object: `document` and `exportUri`
read with `dict.get` (an absent key yields `none`; the empty string is also
falsy). -/
structure NotesDocsDestination where
  document : Option String
  exportUri : Option String
deriving DecidableEq

/-- One entry of the notes `smartNotes` JSON list: `state` and
`docsDestination` read with `dict.get`. -/
structure SmartNote where
  state : Option String
  docsDestination : Option NotesDocsDestination
deriving DecidableEq

/-- Outcome of `download_notes_document` (get_smart_notes.py:341-349). -/
inductive DownloadResult where
  | ok (text : String)
  | permissionDenied
  | notFound
  | otherError
deriving DecidableEq

/-- Terminal outcome of the notes `main` content logic: success payload, or
an `output_error` code together with its message literal (several distinct
failures share the code `notes_fetch_error` and differ in the message; for
the exception-interpolating message of the generic download failure only
the fixed prefix is modelled). -/
inductive NotesOutcome where
  | found (notes : String) (doc_id : String) (doc_url : String)
  | failed (error : String) (message : String)
deriving DecidableEq

/-- `docs_dest.get("exportUri") or f"https://docs.google.com/document/d/.../edit"`
(get_smart_notes.py:502). -/
def notesDocUrl (dd : NotesDocsDestination) (doc_id : String) : String :=
  match dd.exportUri with
  | some u => if u = "" then "https://docs.google.com/document/d/" ++ doc_id ++ "/edit" else u
  | none => "https://docs.google.com/document/d/" ++ doc_id ++ "/edit"

/-- The notes content logic of `main` from the parsed `smartNotes` list
onward (get_smart_notes.py:442-548): empty list is `no_smart_notes`; the
first note's state gates on `STARTED` / `ENDED` / anything but
`FILE_GENERATED`; a `FILE_GENERATED` note without a document id is the
guarded malformed-ready error; otherwise the Drive download's outcome is
mapped, with no fallback path of any kind. -/
def notesPhase (smartNotes : List SmartNote) (download : DownloadResult) : NotesOutcome :=
  match smartNotes with
  | [] => .failed ERROR_NO_SMART_NOTES
      "Conference found but Smart Notes were not enabled for this meeting"
  | note :: _ =>
      if note.state = some "STARTED" then
        .failed ERROR_NOTES_IN_PROGRESS
          "Smart Notes are still being generated (state: STARTED). Meeting may still be in progress."
      else if note.state = some "ENDED" then
        .failed ERROR_NOTES_NOT_READY
          "Smart Notes are still processing (state: ENDED). Try again in a few minutes."
      else if note.state ≠ some "FILE_GENERATED" then
        .failed ERROR_NOTES_NOT_READY
          ("Smart Notes not ready (state: " ++
            (match note.state with | some s => s | none => "None") ++ ")")
      else
        match note.docsDestination with
        | none => .failed ERROR_NOTES_FETCH_ERROR
            "Smart Notes state is FILE_GENERATED but no document ID found"
        | some dd =>
            match dd.document with
            | none => .failed ERROR_NOTES_FETCH_ERROR
                "Smart Notes state is FILE_GENERATED but no document ID found"
            | some doc_id =>
                if doc_id = "" then
                  .failed ERROR_NOTES_FETCH_ERROR
                    "Smart Notes state is FILE_GENERATED but no document ID found"
                else
                  match download with
                  | .ok text => .found text doc_id (notesDocUrl dd doc_id)
                  | .permissionDenied => .failed ERROR_DRIVE_ACCESS_DENIED
                      "Access denied to Smart Notes document. Ensure you have read access to the Google Doc."
                  | .notFound => .failed ERROR_NOTES_FETCH_ERROR
                      "Smart Notes document not found in Drive"
                  | .otherError => .failed ERROR_NOTES_FETCH_ERROR
                      "Failed to download Smart Notes"

/-- The transcript export reference lacks a document id: the condition
`transcript.docs_destination and transcript.docs_destination.document` of
get_transcript.py:551 is falsy. -/
def missingTranscriptDocId : Option DocsDestination → Prop
  | none => True
  | some d => d.document = ""

/-- The notes export reference lacks a document id: the condition of
get_smart_notes.py:491, `not docs_dest or not docs_dest.get("document")`. -/
def missingNotesDocId : Option NotesDocsDestination → Prop
  | none => True
  | some dd => dd.document = none ∨ dd.document = some ""

theorem transcriptFallback_snd (doc_url : Option String) (er : EntriesResult) :
    (transcriptFallback doc_url er).2 = true := by
  cases er with
  | raised => rfl
  | ok entries =>
      by_cases h : entries.isEmpty <;> simp [transcriptFallback, h]

/-- C1 counterexample: in the transcript variant, a `FILE_GENERATED` state
whose export reference lacks a document id yields a successful `found`
outcome through the raw-entries fallback (entries exist here), not an
error verdict: the MalformedReady degradation exists only in the notes
variant. -/
theorem malformed_ready_counterexample :
    transcriptContentPhase ⟨.FILE_GENERATED, none⟩ .otherError (.ok [⟨"P1", "hi"⟩]) =
      (.found "P1: hi" none, true) := by rfl

/-- C1 amended: a `FILE_GENERATED` state with a missing document id yields
the guarded malformed-ready error only in the notes variant
(`notes_fetch_error`, with the no-document-ID message). The transcript
variant never errors on the malformed reference itself: it proceeds to the
raw-entries fallback, which succeeds when entries exist and yields the
empty-content error when they do not. -/
theorem malformed_ready_amended :
    (∀ (dd : Option NotesDocsDestination) (download : DownloadResult)
        (rest : List SmartNote), missingNotesDocId dd →
      notesPhase ({ state := some "FILE_GENERATED", docsDestination := dd } :: rest)
          download =
        .failed ERROR_NOTES_FETCH_ERROR
          "Smart Notes state is FILE_GENERATED but no document ID found") ∧
    (∀ (dd : Option DocsDestination) (ex : ExportResult) (er : EntriesResult),
      missingTranscriptDocId dd →
      transcriptContentPhase ⟨.FILE_GENERATED, dd⟩ ex er = transcriptFallback none er) ∧
    (∀ doc_url, transcriptFallback doc_url (.ok []) =
      (.failed ERROR_TRANSCRIPT_EMPTY, true)) ∧
    (∀ doc_url es, es ≠ [] → transcriptFallback doc_url (.ok es) =
      (.found (format_entries_as_text es) doc_url, true)) := by
  refine ⟨?_, ?_, fun doc_url => rfl, ?_⟩
  · intro dd download rest hmiss
    match dd, hmiss with
    | none, _ => rfl
    | some ⟨none, uri⟩, _ => rfl
    | some ⟨some doc, uri⟩, h =>
        have hdoc : doc = "" := by
          rcases h with h | h
          · exact absurd h (by simp)
          · simpa using h
        subst hdoc
        rfl
  · intro dd ex er hmiss
    match dd, hmiss with
    | none, _ => rfl
    | some d, h =>
        have hdoc : d.document = "" := h
        simp [transcriptContentPhase, hdoc]
  · intro doc_url es hne
    simp [transcriptFallback, List.isEmpty_iff, hne]

theorem malformed_ready_amended_witness :
    notesPhase [{ state := some "FILE_GENERATED", docsDestination := none }] (.ok "body") =
      .failed ERROR_NOTES_FETCH_ERROR
        "Smart Notes state is FILE_GENERATED but no document ID found" ∧
    transcriptContentPhase ⟨.FILE_GENERATED, some ⟨"", "uri"⟩⟩ .otherError (.ok []) =
      (.failed ERROR_TRANSCRIPT_EMPTY, true) := by
  constructor
  · exact malformed_ready_amended.1 none (.ok "body") [] trivial
  · rw [malformed_ready_amended.2.1 (some ⟨"", "uri"⟩) .otherError (.ok []) rfl]
    exact malformed_ready_amended.2.2.1 none

/-- C7: an export failure due to not-found triggers the raw-entries
fallback for transcripts and is terminal for notes (which have no fallback
at all); an export failure due to access-denial is terminal for both
artifact kinds and never reaches a fallback. -/
theorem export_failure_policy :
    (∀ (d : DocsDestination) (er : EntriesResult), d.document ≠ "" →
      transcriptContentPhase ⟨.FILE_GENERATED, some d⟩ .notFound er =
        transcriptFallback (some (transcriptDocUrl d)) er ∧
      (transcriptContentPhase ⟨.FILE_GENERATED, some d⟩ .notFound er).2 = true) ∧
    (∀ (d : DocsDestination) (er : EntriesResult), d.document ≠ "" →
      transcriptContentPhase ⟨.FILE_GENERATED, some d⟩ .permissionDenied er =
        (.failed ERROR_DRIVE_ACCESS_DENIED, false)) ∧
    (∀ (doc : String) (uri : Option String) (rest : List SmartNote), doc ≠ "" →
      notesPhase ((⟨some "FILE_GENERATED", some ⟨some doc, uri⟩⟩ : SmartNote) :: rest)
          .notFound =
        .failed ERROR_NOTES_FETCH_ERROR "Smart Notes document not found in Drive") ∧
    (∀ (doc : String) (uri : Option String) (rest : List SmartNote), doc ≠ "" →
      notesPhase ((⟨some "FILE_GENERATED", some ⟨some doc, uri⟩⟩ : SmartNote) :: rest)
          .permissionDenied =
        .failed ERROR_DRIVE_ACCESS_DENIED
          "Access denied to Smart Notes document. Ensure you have read access to the Google Doc.") := by
  refine ⟨?_, ?_, ?_, ?_⟩
  · intro d er hdoc
    constructor
    · simp [transcriptContentPhase, hdoc]
    · simp [transcriptContentPhase, hdoc, transcriptFallback_snd]
  · intro d er hdoc
    simp [transcriptContentPhase, hdoc]
  · intro doc uri rest hdoc
    simp [notesPhase, hdoc]
  · intro doc uri rest hdoc
    simp [notesPhase, hdoc]

theorem export_failure_policy_witness :
    transcriptContentPhase ⟨.FILE_GENERATED, some ⟨"doc1", ""⟩⟩ .notFound
        (.ok [⟨"A", "hi"⟩]) =
      transcriptFallback (some (transcriptDocUrl ⟨"doc1", ""⟩)) (.ok [⟨"A", "hi"⟩]) ∧
    transcriptContentPhase ⟨.FILE_GENERATED, some ⟨"doc1", ""⟩⟩ .permissionDenied
        (.ok [⟨"A", "hi"⟩]) =
      (.failed ERROR_DRIVE_ACCESS_DENIED, false) ∧
    notesPhase [(⟨some "FILE_GENERATED", some ⟨some "doc1", none⟩⟩ : SmartNote)] .notFound =
      .failed ERROR_NOTES_FETCH_ERROR "Smart Notes document not found in Drive" ∧
    notesPhase [(⟨some "FILE_GENERATED", some ⟨some "doc1", none⟩⟩ : SmartNote)]
        .permissionDenied =
      .failed ERROR_DRIVE_ACCESS_DENIED
        "Access denied to Smart Notes document. Ensure you have read access to the Google Doc." :=
  ⟨(export_failure_policy.1 ⟨"doc1", ""⟩ (.ok [⟨"A", "hi"⟩]) (by decide)).1,
    export_failure_policy.2.1 ⟨"doc1", ""⟩ (.ok [⟨"A", "hi"⟩]) (by decide),
    export_failure_policy.2.2.1 "doc1" none [] (by decide),
    export_failure_policy.2.2.2 "doc1" none [] (by decide)⟩

/-- C10: a successful export returning the empty string is not returned as
content: `if not transcript_text` treats the empty export like a missing
one, the flow proceeds to the raw-entries fallback, reports
`transcript_empty` exactly when the fallback also yields no entries, and a
`found` outcome then carries the fallback reconstruction, never the empty
export text. -/
theorem empty_export_not_returned (d : DocsDestination) (er : EntriesResult)
    (hdoc : d.document ≠ "") :
    transcriptContentPhase ⟨.FILE_GENERATED, some d⟩ (.ok "") er =
      transcriptFallback (some (transcriptDocUrl d)) er ∧
    (transcriptContentPhase ⟨.FILE_GENERATED, some d⟩ (.ok "") er).2 = true ∧
    (er = .ok [] →
      transcriptContentPhase ⟨.FILE_GENERATED, some d⟩ (.ok "") er =
        (.failed ERROR_TRANSCRIPT_EMPTY, true)) ∧
    (∀ es, es ≠ [] → er = .ok es →
      transcriptContentPhase ⟨.FILE_GENERATED, some d⟩ (.ok "") er =
        (.found (format_entries_as_text es) (some (transcriptDocUrl d)), true)) ∧
    (er = .raised →
      transcriptContentPhase ⟨.FILE_GENERATED, some d⟩ (.ok "") er =
        (.failed ERROR_TRANSCRIPT_FETCH_ERROR, true)) := by
  have hphase : transcriptContentPhase ⟨.FILE_GENERATED, some d⟩ (.ok "") er =
      transcriptFallback (some (transcriptDocUrl d)) er := by
    simp [transcriptContentPhase, hdoc]
  refine ⟨hphase, by rw [hphase]; exact transcriptFallback_snd _ _, ?_, ?_, ?_⟩
  · rintro rfl
    rw [hphase]
    rfl
  · rintro es hne rfl
    rw [hphase]
    simp [transcriptFallback, List.isEmpty_iff, hne]
  · rintro rfl
    rw [hphase]
    rfl

theorem empty_export_not_returned_witness :
    transcriptContentPhase ⟨.FILE_GENERATED, some ⟨"doc1", ""⟩⟩ (.ok "")
        (.ok [⟨"A", "hi"⟩]) =
      (.found "A: hi" (some "https://docs.google.com/document/d/doc1/edit"), true) := by
  have h := (empty_export_not_returned ⟨"doc1", ""⟩ (.ok [⟨"A", "hi"⟩])
    (by decide)).2.2.2.1 [⟨"A", "hi"⟩] (by decide) rfl
  rw [h]
  rfl

/-- Result of `parse_timestamp`: a datetime (always timezone-aware) or a
`ValueError` on unparsable input. -/
inductive ParseResult where
  | ok (t : PyDateTime)
  | valueError
deriving DecidableEq

/-- Result of `get_credentials`: success, missing client configuration
(`FileNotFoundError`), or a rejected refresh token (`RefreshError`). -/
inductive AuthResult where
  | ok
  | configMissing
  | refreshFailed
deriving DecidableEq

/-- `timedelta(hours=DEFAULT_TIME_WINDOW_HOURS)` in seconds
(get_transcript.py:47, get_smart_notes.py:53). -/
def DEFAULT_TIME_WINDOW_SECONDS : Int := 14400

/-- `before = after + timedelta(hours=DEFAULT_TIME_WINDOW_HOURS)`
(get_transcript.py:464, get_smart_notes.py:370): datetime addition keeps
the timezone and shifts the instant. -/
def defaultBefore (after : PyDateTime) : PyDateTime :=
  { instant := after.instant + DEFAULT_TIME_WINDOW_SECONDS, aware := after.aware }

/-- Environment of one invocation's prelude: the parse results of the two
timestamp arguments (`none` when `--before` was not passed), the credential
outcome, and the session-query outcome consumed by the resolver. -/
structure PreludeEnv where
  afterParse : ParseResult
  beforeArg : Option ParseResult
  auth : AuthResult
  query : QueryResult
deriving DecidableEq

/-- The `main` prelude shared by both scripts, from timestamp parsing
through conference-record resolution (get_transcript.py:450-501 and
get_smart_notes.py:356-407, which are line-for-line identical here):
either the resolved record or the first `output_error` code, paired with
the number of remote Meet-API queries issued (the resolver's session query
is the only one in this prelude; repeats of that same query by the Retry
Executor are not counted separately). The source contains no validity
check of the window anywhere in this prelude. -/
def mainPrelude (env : PreludeEnv) : Except String ConferenceRecord × Nat :=
  match env.afterParse with
  | .valueError => (.error ERROR_INVALID_TIMESTAMP, 0)
  | .ok after =>
      let beforeStep : Except String PyDateTime :=
        match env.beforeArg with
        | some .valueError => .error ERROR_INVALID_TIMESTAMP
        | some (.ok b) => .ok b
        | none => .ok (defaultBefore after)
      match beforeStep with
      | .error e => (.error e, 0)
      | .ok before =>
          match env.auth with
          | .configMissing => (.error ERROR_AUTH_CONFIG_MISSING, 0)
          | .refreshFailed => (.error ERROR_AUTH_REFRESH_FAILED, 0)
          | .ok =>
              match find_conference_record env.query after before with
              | .error .permissionError => (.error ERROR_MEET_ACCESS_DENIED, 1)
              | .error .unhandled => (.error ERROR_MEET_API_ERROR, 1)
              | .ok none => (.error ERROR_NO_CONFERENCE, 1)
              | .ok (some r) => (.ok r, 1)

theorem filterWindow_empty_of_lt (after before : PyDateTime)
    (h : before.instant < after.instant) (records : List ConferenceRecord) :
    filterWindow after before records = [] := by
  rw [filterWindow_eq_filter]
  rw [List.filter_eq_nil_iff]
  intro r hr hw
  obtain ⟨t, -, h1, h2⟩ := (inWindow_iff after before r).mp hw
  omega

/-- An empty-window invocation: `--after` at instant 1000, explicit
`--before` at instant 0 (both aware), credentials fine, and a remote query
that would return one session (started at instant 500). -/
def emptyWindowEnv : PreludeEnv :=
  { afterParse := .ok ⟨1000, true⟩
    beforeArg := some (.ok ⟨0, true⟩)
    auth := .ok
    query := .ok [{ name := "conferenceRecords/x", start_time := some ⟨500, true⟩,
                    end_time := none }] }

/-- C2 counterexample: with an explicit empty window (`before < after`) the
invocation is not rejected before a remote call: the session query is
issued (remote call count 1), and the rejection is the post-query
`no_conference_record` error, not any pre-flight validation error. -/
theorem empty_window_counterexample :
    mainPrelude emptyWindowEnv = (.error ERROR_NO_CONFERENCE, 1) := by rfl

/-- C2 amended: an empty time window is never rejected up front. A
defaulted `--before` equals `after + 4 hours` and so can never make the
window empty; an explicit `before < after` still triggers the remote
session query, after which the invocation fails with
`no_conference_record` because no start time can satisfy the empty
window. -/
theorem empty_window_amended (env : PreludeEnv) (after before : PyDateTime)
    (records : List ConferenceRecord)
    (hafter : env.afterParse = .ok after)
    (hbefore : env.beforeArg = some (.ok before))
    (hauth : env.auth = .ok)
    (hq : env.query = .ok records)
    (hempty : before.instant < after.instant) :
    mainPrelude env = (.error ERROR_NO_CONFERENCE, 1) ∧
    ∀ a : PyDateTime, ¬(defaultBefore a).instant < a.instant := by
  have hfw := filterWindow_empty_of_lt after before hempty records
  constructor
  · by_cases hrec : records.isEmpty
    · simp [mainPrelude, hafter, hbefore, hauth, hq, find_conference_record, hrec]
    · simp [mainPrelude, hafter, hbefore, hauth, hq, find_conference_record, hrec, hfw]
  · intro a
    simp [defaultBefore, DEFAULT_TIME_WINDOW_SECONDS]

/-- A second empty-window invocation, for the amended theorem's witness. -/
def emptyWindowEnv2 : PreludeEnv :=
  { afterParse := .ok ⟨7200, true⟩
    beforeArg := some (.ok ⟨3600, true⟩)
    auth := .ok
    query := .ok [{ name := "conferenceRecords/y", start_time := some ⟨5000, true⟩,
                    end_time := none }] }

theorem empty_window_amended_witness :
    mainPrelude emptyWindowEnv2 = (.error ERROR_NO_CONFERENCE, 1) :=
  (empty_window_amended emptyWindowEnv2 ⟨7200, true⟩ ⟨3600, true⟩
    [{ name := "conferenceRecords/y", start_time := some ⟨5000, true⟩, end_time := none }]
    rfl rfl rfl rfl (by decide)).1

/-- Python `\s` on the ASCII range (the label pattern only ever needs
ASCII whitespace). -/
def isPySpace (c : Char) : Bool :=
  c = ' ' || c = '\t' || c = '\n' || c = '\r' || c = '\x0b' || c = '\x0c'

def isAsciiUpper (c : Char) : Bool :=
  'A' ≤ c && c ≤ 'Z'

def isAsciiAlpha (c : Char) : Bool :=
  ('A' ≤ c && c ≤ 'Z') || ('a' ≤ c && c ≤ 'z')

def isAsciiDigit (c : Char) : Bool :=
  '0' ≤ c && c ≤ '9'

/-- A backtracking regex fragment: maps the input to the list of possible
remainders after a match, in the preference order of Python's backtracking
engine (greedy quantifiers longest-first, alternation left-branch-first). -/
def RegexFrag : Type := List Char → List (List Char)

def fragChar (c : Char) : RegexFrag := fun s =>
  match s with
  | x :: rest => if x = c then [rest] else []
  | [] => []

def fragClass (f : Char → Bool) : RegexFrag := fun s =>
  match s with
  | x :: rest => if f x then [rest] else []
  | [] => []

/-- Number of leading characters satisfying `f`. -/
def leadCount (f : Char → Bool) : List Char → Nat
  | [] => 0
  | x :: rest => if f x then leadCount f rest + 1 else 0

/-- Greedy `f*` for a single-character class: remainders after consuming
the maximal run first, then ever shorter runs down to none. -/
def fragStar (f : Char → Bool) : RegexFrag := fun s =>
  let k := leadCount f s
  (List.range (k + 1)).map (fun i => s.drop (k - i))

/-- Greedy `f+` for a single-character class. -/
def fragPlus (f : Char → Bool) : RegexFrag := fun s =>
  match s with
  | x :: rest => if f x then fragStar f rest else []
  | [] => []

/-- Sequencing: every completion of the first fragment, each continued by
the second, preserving preference order. -/
def fragSeq (p q : RegexFrag) : RegexFrag := fun s => (p s).flatMap q

/-- Alternation, left branch preferred. -/
def fragAlt (p q : RegexFrag) : RegexFrag := fun s => p s ++ q s

/-- Greedy option `p?`: matching preferred over skipping. -/
def fragOpt (p : RegexFrag) : RegexFrag := fun s => p s ++ [s]

/-- A literal character sequence. -/
def fragLit : List Char → RegexFrag
  | [] => fun s => [s]
  | c :: cs => fragSeq (fragChar c) (fragLit cs)

/-- The branch `Speaker\s+\d+` of the pattern of get_transcript.py:239-242. -/
def speakerNumBranch : RegexFrag :=
  fragSeq (fragLit ['S', 'p', 'e', 'a', 'k', 'e', 'r'])
    (fragSeq (fragPlus isPySpace) (fragPlus isAsciiDigit))

/-- The branch `[A-Z][a-zA-Z]*(?:\s+[A-Z]\.?)?(?:\s+[A-Z][a-zA-Z]*)?`:
a capitalized word, an optional middle initial (optionally dotted), an
optional second capitalized word. -/
def nameBranch : RegexFrag :=
  fragSeq (fragClass isAsciiUpper)
    (fragSeq (fragStar isAsciiAlpha)
      (fragSeq
        (fragOpt (fragSeq (fragPlus isPySpace)
          (fragSeq (fragClass isAsciiUpper) (fragOpt (fragChar '.')))))
        (fragOpt (fragSeq (fragPlus isPySpace)
          (fragSeq (fragClass isAsciiUpper) (fragStar isAsciiAlpha))))))

/-- The full speaker-label pattern of get_transcript.py:239-242 anchored at
the start of a line: either branch, then `:`, then greedy `\s*`. -/
def speakerLabelFrag : RegexFrag :=
  fragSeq (fragAlt speakerNumBranch nameBranch)
    (fragSeq (fragChar ':') (fragStar isPySpace))

/-- The engine's chosen match at position 0 of one line: the first complete
path in preference order, as the remainder after the matched label;
`none` when the pattern does not match at the line start. -/
def matchSpeakerLabel (line : List Char) : Option (List Char) :=
  (speakerLabelFrag line).head?

/-- `speaker_pattern.sub("", line)` for one line: a line contains no
newline, so the MULTILINE `^` anchor admits matches only at position 0, and
the pattern cannot match the empty string, so at most one substitution
(the removal of one leading label) can happen. -/
def stripLine (line : List Char) : List Char :=
  match matchSpeakerLabel line with
  | some rest => rest
  | none => line

/-- `transcript.split("\n")` on the character list. -/
def splitNl : List Char → List (List Char)
  | [] => [[]]
  | c :: rest =>
      if c = '\n' then [] :: splitNl rest
      else
        match splitNl rest with
        | [] => [[c]]
        | l :: ls => (c :: l) :: ls

/-- `"\n".join(lines)`. -/
def joinNl : List (List Char) → List Char
  | [] => []
  | [l] => l
  | l :: ls => l ++ '\n' :: joinNl ls

/-- `strip_speaker_labels` (get_transcript.py:219-247): split on newlines,
strip one leading speaker label per line when present, rejoin. -/
def strip_speaker_labels (transcript : String) : String :=
  String.mk (joinNl ((splitNl transcript.data).map stripLine))

/-- A fragment only ever consumes a prefix: every remainder it can leave is
a suffix (`drop`) of its input. -/
def FragConsumes (p : RegexFrag) : Prop :=
  ∀ s r, r ∈ p s → ∃ k, r = s.drop k

theorem fragChar_consumes (c : Char) : FragConsumes (fragChar c) := by
  intro s r hr
  match s with
  | [] => simp [fragChar] at hr
  | x :: rest =>
      by_cases h : x = c
      · simp [fragChar, h] at hr
        exact ⟨1, by simp [hr]⟩
      · simp [fragChar, h] at hr

theorem fragClass_consumes (f : Char → Bool) : FragConsumes (fragClass f) := by
  intro s r hr
  match s with
  | [] => simp [fragClass] at hr
  | x :: rest =>
      by_cases h : f x
      · simp [fragClass, h] at hr
        exact ⟨1, by simp [hr]⟩
      · simp [fragClass, h] at hr

theorem fragStar_consumes (f : Char → Bool) : FragConsumes (fragStar f) := by
  intro s r hr
  simp only [fragStar, List.mem_map, List.mem_range] at hr
  obtain ⟨i, -, hi⟩ := hr
  exact ⟨leadCount f s - i, hi.symm⟩

theorem fragPlus_consumes (f : Char → Bool) : FragConsumes (fragPlus f) := by
  intro s r hr
  match s with
  | [] => simp [fragPlus] at hr
  | x :: rest =>
      by_cases h : f x
      · simp only [fragPlus, h, if_true] at hr
        obtain ⟨k, hk⟩ := fragStar_consumes f rest r hr
        exact ⟨k + 1, by simp [hk]⟩
      · simp [fragPlus, h] at hr

theorem fragSeq_consumes (p q : RegexFrag) (hp : FragConsumes p)
    (hq : FragConsumes q) : FragConsumes (fragSeq p q) := by
  intro s r hr
  simp only [fragSeq, List.mem_flatMap] at hr
  obtain ⟨m, hm, hrm⟩ := hr
  obtain ⟨k1, hk1⟩ := hp s m hm
  obtain ⟨k2, hk2⟩ := hq m r hrm
  subst hk1
  subst hk2
  exact ⟨k1 + k2, by rw [List.drop_drop]⟩

theorem fragAlt_consumes (p q : RegexFrag) (hp : FragConsumes p)
    (hq : FragConsumes q) : FragConsumes (fragAlt p q) := by
  intro s r hr
  rcases List.mem_append.mp hr with h | h
  · exact hp s r h
  · exact hq s r h

theorem fragOpt_consumes (p : RegexFrag) (hp : FragConsumes p) :
    FragConsumes (fragOpt p) := by
  intro s r hr
  rcases List.mem_append.mp hr with h | h
  · exact hp s r h
  · simp at h
    exact ⟨0, by simp [h]⟩

theorem fragLit_consumes (cs : List Char) : FragConsumes (fragLit cs) := by
  induction cs with
  | nil =>
      intro s r hr
      simp [fragLit] at hr
      exact ⟨0, by simp [hr]⟩
  | cons c cs ih =>
      exact fragSeq_consumes _ _ (fragChar_consumes c) ih

theorem speakerNumBranch_consumes : FragConsumes speakerNumBranch :=
  fragSeq_consumes _ _ (fragLit_consumes _)
    (fragSeq_consumes _ _ (fragPlus_consumes _) (fragPlus_consumes _))

theorem nameBranch_consumes : FragConsumes nameBranch :=
  fragSeq_consumes _ _ (fragClass_consumes _)
    (fragSeq_consumes _ _ (fragStar_consumes _)
      (fragSeq_consumes _ _
        (fragOpt_consumes _ (fragSeq_consumes _ _ (fragPlus_consumes _)
          (fragSeq_consumes _ _ (fragClass_consumes _)
            (fragOpt_consumes _ (fragChar_consumes _)))))
        (fragOpt_consumes _ (fragSeq_consumes _ _ (fragPlus_consumes _)
          (fragSeq_consumes _ _ (fragClass_consumes _) (fragStar_consumes _))))))

theorem speakerLabelFrag_consumes : FragConsumes speakerLabelFrag :=
  fragSeq_consumes _ _ (fragAlt_consumes _ _ speakerNumBranch_consumes nameBranch_consumes)
    (fragSeq_consumes _ _ (fragChar_consumes _) (fragStar_consumes _))

theorem headEqSomeMem {α : Type} {l : List α} {a : α} (h : l.head? = some a) :
    a ∈ l := by
  cases l with
  | nil => simp at h
  | cons x xs =>
      simp at h
      subst h
      exact List.mem_cons_self x xs

/-- C9: the stripper splits its input on newlines, processes each line
independently and rejoins with newlines; per line it removes at most one
leading label — the chosen match of the `Speaker`-plus-number or
capitalized-name pattern (with colon and trailing whitespace), always a
prefix of the line — passes lines without such a prefix through unchanged,
and maps the example to `hello` / `world` / `No label here`. -/
theorem strip_speaker_labels_spec :
    (∀ t : String, strip_speaker_labels t =
      String.mk (joinNl ((splitNl t.data).map stripLine))) ∧
    (∀ line : List Char, matchSpeakerLabel line = none → stripLine line = line) ∧
    (∀ line rest : List Char, matchSpeakerLabel line = some rest →
      stripLine line = rest ∧ ∃ k, rest = line.drop k) ∧
    strip_speaker_labels "Speaker 1: hello\nJohn Smith: world\nNo label here" =
      "hello\nworld\nNo label here" := by
  refine ⟨fun t => rfl, ?_, ?_, by decide⟩
  · intro line h
    simp [stripLine, h]
  · intro line rest h
    refine ⟨by simp [stripLine, h], ?_⟩
    exact speakerLabelFrag_consumes line rest (headEqSomeMem h)

theorem strip_speaker_labels_spec_witness :
    stripLine "No label here".data = "No label here".data ∧
    stripLine "Speaker 1: hello".data = "hello".data := by
  constructor
  · exact strip_speaker_labels_spec.2.1 "No label here".data (by decide)
  · exact (strip_speaker_labels_spec.2.2.1 "Speaker 1: hello".data
      "hello".data (by decide)).1

end Hyperbrain
